import Mathlib

/-!
# Verification of the bank-statement transaction extractor

Shallow embedding of `src/transactions_extractor.py`.

Modelling choices, all documented at the definition they concern:

* Python strings are `List Char`; Python's `str.strip`, `str.replace`,
  substring test (`in`), `str.lower` and sequence indexing (including
  negative indices) are implemented below as `strip`, `removeAll`,
  `isSubstr`, `toLowerList` and `pyIndex`.
* The regular-expression engine (`re.search`) is an external collaborator:
  a line of input is represented by its match outcome, `none` for a
  non-match and `some groups` for a match, where `groups` is the tuple
  returned by `match.groups()` — a list of optional captured strings.
  Everything the extractor does with a line depends only on this data.
* `float(...)` is modelled as `parseFloat` over exact rationals: the
  decimal fragment (optional sign, integer/fractional digits, optional
  exponent) of Python's float grammar, abstracting from IEEE-754 rounding;
  the amounts appearing in the claims are exactly representable.
* `pd.to_datetime(s, format=f)` / `strftime` are modelled by `parseDate` /
  `formatDate` for the two strptime formats the program uses
  (`'%d %b %y'` and `'%d/%m/%Y'`), as an enum `DateFormat`.  Dates are the
  totally ordered encoding `year*10000 + month*100 + day : Nat`.
* `DataFrame.sort_values('Date')` uses pandas' default `kind='quicksort'`,
  i.e. numpy's introsort, which is *not* stable.  It is modelled faithfully
  in `pandasSortValues` below (see the comment there).
* Exceptions: every per-line failure is caught by the per-line
  `try/except` and skips the line, so line processing is the total
  function `processLine : … → Option Tx`.  The whole-extraction
  `try/except` at the bottom of `extract_transactions_from_region` is the
  outer `match` mapping any internal error to an empty `DataFrame`.
-/

/-! ## Python string primitives -/

/-- The whitespace characters recognised by Python's `str.strip()` (ASCII part). -/
def isSpaceChar (c : Char) : Bool :=
  c == ' ' || c == '\t' || c == '\n' || c == '\r' || c == '\x0b' || c == '\x0c'

/-- Leading-whitespace removal, first half of `str.strip()`. -/
def stripLeading (s : List Char) : List Char := s.dropWhile isSpaceChar

/-- Trailing-whitespace removal, second half of `str.strip()`. -/
def stripTrailing (s : List Char) : List Char := (s.reverse.dropWhile isSpaceChar).reverse

/-- Python `str.strip()`. -/
def strip (s : List Char) : List Char := stripTrailing (stripLeading s)

/-- Does `s` start with `pat`? (helper for substring search and `str.replace`). -/
def startsWith : List Char → List Char → Bool
  | [], _ => true
  | _ :: _, [] => false
  | p :: ps, s :: ss => p == s && startsWith ps ss

/-- Python's substring test `pat in s`. -/
def isSubstr (pat : List Char) : List Char → Bool
  | [] => pat.isEmpty
  | s :: ss => startsWith pat (s :: ss) || isSubstr pat ss

/-- Worker for `removeAll`, structurally recursive on a fuel argument so
that it reduces inside the kernel; the fuel is the string length, which
bounds the number of scan steps (each step consumes at least one
character). -/
def removeAllF (pat : List Char) : Nat → List Char → List Char
  | _, [] => []
  | 0, s => s
  | f + 1, x :: ss =>
    if pat ≠ [] ∧ startsWith pat (x :: ss) = true then
      removeAllF pat f ((x :: ss).drop pat.length)
    else
      x :: removeAllF pat f ss

/-- Python `s.replace(pat, '')`: delete every non-overlapping occurrence of
`pat`, scanning left to right.  (`s.replace('', '')` is `s`, matching Python.) -/
def removeAll (pat s : List Char) : List Char := removeAllF pat s.length s

/-- Python `s.replace(',', '')` as used on amount strings. -/
def removeCommas (s : List Char) : List Char := removeAll [','] s

/-- Python `str.lower()`. -/
def toLowerList (s : List Char) : List Char := s.map Char.toLower

/-- Python sequence indexing `l[i]`: negative indices count from the end,
out-of-range indexing raises `IndexError` (modelled as `none`). -/
def pyIndex (l : List α) (i : Int) : Option α :=
  if i < 0 then
    if (-i).toNat ≤ l.length then l.get? (l.length - (-i).toNat) else none
  else l.get? i.toNat

/-- Python truthiness of an `Optional[int]`: `None` and `0` are falsy. -/
def pyTruthy : Option Int → Bool
  | none => false
  | some n => n != 0

/-! ## Python `float()` (decimal fragment, exact rationals) -/

/-- Numeric value of a digit string. -/
def digitsToNat (l : List Char) : Nat := l.foldl (fun a c => a * 10 + (c.toNat - 48)) 0

/-- Exponent part after `e`/`E` in a float literal. -/
def parseExp (s : List Char) : Option Int :=
  let (sgn, s') : Int × List Char :=
    match s with
    | '-' :: t => (-1, t)
    | '+' :: t => (1, t)
    | _ => (1, s)
  let ds := s'.takeWhile Char.isDigit
  let rest := s'.dropWhile Char.isDigit
  if ds.isEmpty || !rest.isEmpty then none else some (sgn * (digitsToNat ds : Int))

/-- The rational `(n / den) * 10^e`, assembled with integer arithmetic and
a single `mkRat` (whose normalisation the kernel can evaluate). -/
def applyExp (n : Int) (den : Nat) (e : Int) : Rat :=
  if 0 ≤ e then mkRat (n * (10 : Int) ^ e.toNat) den else mkRat n (den * 10 ^ (-e).toNat)

/-- Python `float(s)`, decimal fragment: surrounding whitespace, optional
sign, digits with optional fractional part and optional exponent.  The
special forms (`inf`, `nan`, underscores, hex) do not occur in statement
text and are omitted; values are exact rationals (see header). -/
def parseFloat (s0 : List Char) : Option Rat :=
  let s1 := strip s0
  let (neg, s) : Bool × List Char :=
    match s1 with
    | '-' :: t => (true, t)
    | '+' :: t => (false, t)
    | _ => (false, s1)
  let signed : Nat → Int := fun m => if neg then -(m : Int) else (m : Int)
  let withExp : Int → Nat → List Char → Option Rat := fun n den r =>
    match r with
    | [] => some (mkRat n den)
    | 'e' :: r4 => (parseExp r4).map (applyExp n den)
    | 'E' :: r4 => (parseExp r4).map (applyExp n den)
    | _ => none
  let ip := s.takeWhile Char.isDigit
  let r1 := s.dropWhile Char.isDigit
  match r1 with
  | '.' :: r2 =>
    let fp := r2.takeWhile Char.isDigit
    let r3 := r2.dropWhile Char.isDigit
    if ip.isEmpty && fp.isEmpty then none
    else withExp (signed (digitsToNat ip * 10 ^ fp.length + digitsToNat fp)) (10 ^ fp.length) r3
  | _ => if ip.isEmpty then none else withExp (signed (digitsToNat ip)) 1 r1

/-! ## Dates: the two strptime formats used by the program

`pd.to_datetime(s, format=f)` raises on any mismatch (caught per line);
`strftime` renders.  `parseDate`/`formatDate` interpret the two format
strings the program uses, following CPython's `_strptime` regexes:
`%d` = 1–2 digit day, `%b` = case-insensitive 3-letter month name,
`%y` = exactly 2 digits (69–99 ↦ 19xx, 00–68 ↦ 20xx), `%Y` = exactly
4 digits, a literal space matches one-or-more whitespace, the whole
string must be consumed, and the resulting calendar date must be valid. -/

/-- The two strptime format strings appearing in `BANK_PATTERNS`:
`dby2` is `'%d %b %y'`, `dmy4` is `'%d/%m/%Y'`. -/
inductive DateFormat where
  | dby2
  | dmy4
  deriving DecidableEq, Inhabited

/-- Abbreviated month names as produced by `strftime('%b')` in the C locale. -/
def monthNames : List (List Char) :=
  ["Jan".toList, "Feb".toList, "Mar".toList, "Apr".toList, "May".toList, "Jun".toList,
   "Jul".toList, "Aug".toList, "Sep".toList, "Oct".toList, "Nov".toList, "Dec".toList]

/-- 1-based index of a month name, compared case-insensitively (strptime `%b`). -/
def monthIdx : List (List Char) → List Char → Nat → Option Nat
  | [], _, _ => none
  | n :: ns, s, i => if toLowerList n == s then some i else monthIdx ns s (i + 1)

/-- Month number from a (3-letter) month name. -/
def monthFromName (s : List Char) : Option Nat := monthIdx monthNames (toLowerList s) 1

/-- Gregorian leap year. -/
def isLeap (y : Nat) : Bool := y % 4 == 0 && (y % 100 != 0 || y % 400 == 0)

/-- Number of days in a month. -/
def daysInMonth (y m : Nat) : Nat :=
  if m == 2 then (if isLeap y then 29 else 28)
  else if m == 4 || m == 6 || m == 9 || m == 11 then 30
  else 31

/-- Encoded calendar date `year*10000 + month*100 + day`; the encoding is
ordered chronologically for valid dates, matching pandas datetime order. -/
def mkDate (y m d : Nat) : Nat := y * 10000 + m * 100 + d

/-- strptime `%y` century rule: 00–68 ↦ 2000s, 69–99 ↦ 1900s. -/
def yearFrom2 (yy : Nat) : Nat := if yy ≤ 68 then 2000 + yy else 1900 + yy

/-- `pd.to_datetime(s, format=f)` for the two formats used (header comment);
`none` models the `ValueError` that skips the line. -/
def parseDate : DateFormat → List Char → Option Nat
  | .dby2, s =>
    let ds := s.takeWhile Char.isDigit
    let r1 := s.dropWhile Char.isDigit
    if ds.length = 0 ∨ 2 < ds.length then none
    else
      let sp1 := r1.takeWhile isSpaceChar
      let r2 := r1.dropWhile isSpaceChar
      if sp1.isEmpty then none
      else
        match monthFromName (r2.take 3) with
        | none => none
        | some m =>
          let r3 := r2.drop 3
          let sp2 := r3.takeWhile isSpaceChar
          let r4 := r3.dropWhile isSpaceChar
          if sp2.isEmpty then none
          else
            let ys := r4.takeWhile Char.isDigit
            let r5 := r4.dropWhile Char.isDigit
            if ys.length ≠ 2 ∨ ¬ r5.isEmpty then none
            else
              let d := digitsToNat ds
              let y := yearFrom2 (digitsToNat ys)
              if 1 ≤ d ∧ d ≤ daysInMonth y m then some (mkDate y m d) else none
  | .dmy4, s =>
    let ds := s.takeWhile Char.isDigit
    let r1 := s.dropWhile Char.isDigit
    if ds.length = 0 ∨ 2 < ds.length then none
    else
      match r1 with
      | '/' :: r2 =>
        let ms := r2.takeWhile Char.isDigit
        let r3 := r2.dropWhile Char.isDigit
        if ms.length = 0 ∨ 2 < ms.length then none
        else
          match r3 with
          | '/' :: r4 =>
            let ys := r4.takeWhile Char.isDigit
            let r5 := r4.dropWhile Char.isDigit
            if ys.length ≠ 4 ∨ ¬ r5.isEmpty then none
            else
              let d := digitsToNat ds
              let m := digitsToNat ms
              let y := digitsToNat ys
              if 1 ≤ y ∧ 1 ≤ m ∧ m ≤ 12 ∧ 1 ≤ d ∧ d ≤ daysInMonth y m then
                some (mkDate y m d)
              else none
          | _ => none
      | _ => none

/-- Zero-padded two-digit rendering (`%d`, `%m`, `%y`). -/
def twoDigits (n : Nat) : List Char :=
  [Char.ofNat (48 + n / 10 % 10), Char.ofNat (48 + n % 10)]

/-- Zero-padded four-digit rendering (`%Y`). -/
def fourDigits (n : Nat) : List Char :=
  [Char.ofNat (48 + n / 1000 % 10), Char.ofNat (48 + n / 100 % 10),
   Char.ofNat (48 + n / 10 % 10), Char.ofNat (48 + n % 10)]

/-- Month name for `strftime('%b')`. -/
def monthName (m : Nat) : List Char := (monthNames.get? (m - 1)).getD ['?', '?', '?']

/-- `date_obj.strftime(f)` for the two formats used. -/
def formatDate : DateFormat → Nat → List Char
  | .dby2, dt => twoDigits (dt % 100) ++ ' ' :: monthName (dt / 100 % 100) ++ ' ' :: twoDigits (dt / 10000 % 100)
  | .dmy4, dt => twoDigits (dt % 100) ++ '/' :: twoDigits (dt / 100 % 100) ++ '/' :: fourDigits (dt / 10000)

/-! ## The pattern model (`BankPattern` dataclass, lines 12–26) -/

/-- The `BankPattern` dataclass.  Field-for-field translation; `date_format`
and `date_out_format` hold the strptime format (as the enum `DateFormat`);
`pattern` carries the regex source text (matching itself is external, see
header).  Defaults are the dataclass defaults. -/
structure BankPattern where
  name : List Char
  pattern : List Char
  date_format : DateFormat
  date_out_format : DateFormat := .dby2
  credit_identifier : List Char := ['C']
  debit_identifier : List Char := ['D']
  amount_group : Int := 3
  date_group : Int := 1
  desc_group : Int := 2
  type_group : Option Int := some 4
  credit_suffix : Option (List Char) := none
  deriving DecidableEq, Inhabited

/-- The `sbi` entry of `BANK_PATTERNS` (lines 29–33). -/
def sbiPattern : BankPattern :=
  { name := "SBI".toList
    pattern := "(\\d\x7b2\x7d \\w\x7b3\x7d \\d\x7b2\x7d) (.*?) (\\d\x7b1,3\x7d(?:,\\d\x7b3\x7d)*\\.?\\d\x7b0,2\x7d) ([CD])".toList
    date_format := .dby2 }

/-- The `hdfc` entry of `BANK_PATTERNS` (lines 34–40). -/
def hdfcPattern : BankPattern :=
  { name := "HDFC".toList
    pattern := "(\\d\x7b2\x7d/\\d\x7b2\x7d/\\d\x7b4\x7d)\\s+(.*?)\\s+((?:\\d\x7b1,3\x7d(?:,\\d\x7b3\x7d)*\\.?\\d\x7b0,2\x7d)(?:\\s*Cr)?)\\s*$".toList
    date_format := .dmy4
    credit_suffix := some "Cr".toList
    type_group := none }

/-- The `BANK_PATTERNS` registry (lines 28–41), an insertion-ordered dict. -/
def BANK_PATTERNS : List (List Char × BankPattern) :=
  [("sbi".toList, sbiPattern), ("hdfc".toList, hdfcPattern)]

/-- `BANK_PATTERNS.get(key)`. -/
def lookupBank (k : List Char) : Option BankPattern :=
  (BANK_PATTERNS.find? (fun e => e.1 == k)).map (fun e => e.2)

/-- The only exception class the extractor itself raises (`ValueError`);
the source defines no `ConfigurationError` or `UnknownBankError`. -/
inductive PyExn where
  | valueError (msg : List Char)
  deriving DecidableEq

/-- The `bank_pattern` argument of `extract_transactions_from_region`:
either a string key or a `BankPattern` object (lines 160–168). -/
inductive BankPatternArg where
  | key (s : List Char)
  | pat (p : BankPattern)

/-- The message of the unknown-bank `ValueError` (line 164). -/
def unknownMsg (k : List Char) : List Char := "Unknown bank pattern: ".toList ++ k

/-- Lines 160–168: resolve the `bank_pattern` argument.  A string key is
lowercased and looked up in `BANK_PATTERNS`, a miss raises
`ValueError(f"Unknown bank pattern: …")`; a `BankPattern` object is used as
is, with no validation of any kind. -/
def getPattern : BankPatternArg → Except PyExn BankPattern
  | .key s =>
    match lookupBank (toLowerList s) with
    | some p => .ok p
    | none => .error (.valueError (unknownMsg s))
  | .pat p => .ok p

/-! ## The line matcher / field extractor (lines 184–248) -/

/-- One line of region text, as seen by the extractor: the outcome of
`re.search(pattern.pattern, line)` — `none` for a non-match, otherwise
`match.groups()` (line 188), a list of optional captured strings. -/
abbrev LineMatch := Option (List (Option (List Char)))

/-- A transaction dict as appended at lines 238–243.  `Date` holds the
`strftime`-rendered standard date string (`std_date`); the field the code
calls `Type` is named `txnType` because `Type` is a Lean keyword. -/
structure Tx where
  Date : List Char
  Description : List Char
  Amount : Rat
  txnType : List Char
  deriving DecidableEq, Inhabited

/-- `groups[i]` where the result is used as a string: out-of-range raises
(skipping the line) and a `None` group makes the subsequent operation
raise as well (`to_datetime(None, …)`, `None.strip()`, the explicit
`if amount_str is None` check) — both are `none` here. -/
def getGroup (groups : List (Option (List Char))) (i : Int) : Option (List Char) :=
  (pyIndex groups i).bind id

/-- Lines 226–232: determine `is_credit`.  `if pattern.type_group:` is
Python truthiness (`None` and `0` take the `else` branch).  In the type
branch, `groups[type_group-1]` out of range raises (`none`, line skipped),
while a `None` group compares unequal to the marker without raising.  In
the suffix branch, `credit_suffix and credit_suffix in raw` is falsy when
the suffix is `None` or empty. -/
def isCreditOf (p : BankPattern) (groups : List (Option (List Char)))
    (amountRaw : List Char) : Option Bool :=
  if pyTruthy p.type_group then
    match pyIndex groups ((p.type_group.getD 0) - 1) with
    | none => none
    | some none => some false
    | some (some t) => some (t == p.credit_identifier)
  else
    some (match p.credit_suffix with
      | none => false
      | some cs => if cs.isEmpty then false else isSubstr cs amountRaw)

/-- Lines 213–217: clean the amount string — strip thousands separators,
strip the credit suffix if configured (Python truthiness: `None` and `''`
skip the replace), trim whitespace. -/
def cleanAmount (p : BankPattern) (raw : List Char) : List Char :=
  let s1 := removeCommas raw
  let s2 :=
    match p.credit_suffix with
    | none => s1
    | some cs => if cs.isEmpty then s1 else removeAll cs s1
  strip s2

/-- The body of the per-line loop (lines 184–248) for one line.  Every
exception inside the loop is caught by the per-line `try/except`
(lines 246–248) and skips the line, hence the `Option`. -/
def processLine (p : BankPattern) (lm : LineMatch) : Option Tx :=
  lm.bind fun groups =>
    if groups.any (fun g => g == none) then none
    else
      (getGroup groups (p.date_group - 1)).bind fun dateStr =>
        (parseDate p.date_format dateStr).bind fun d =>
          (getGroup groups (p.desc_group - 1)).bind fun descStr =>
            (getGroup groups (p.amount_group - 1)).bind fun amountRaw =>
              (parseFloat (cleanAmount p amountRaw)).bind fun amount =>
                (isCreditOf p groups amountRaw).bind fun isCr =>
                  some { Date := formatDate p.date_out_format d
                         Description := strip descStr
                         Amount := if isCr then amount else -amount
                         txnType := if isCr then p.credit_identifier else p.debit_identifier }

/-- The whole per-line loop: one optional record per line, in line order. -/
def extractRecords (p : BankPattern) (lines : List LineMatch) : List Tx :=
  lines.filterMap (processLine p)

/-! ## Bank identification (`identify_bank`, lines 93–123) -/

/-- The `bank_identifiers` dict (lines 107–110), in insertion order. -/
def bank_identifiers : List (List Char × List Char) :=
  [("hdfc".toList, "HDFC Bank Credit Cards GSTIN".toList),
   ("sbi".toList, "GSTIN of SBI Card".toList)]

/-- The identification loop (lines 113–119): first entry whose marker is a
substring of the page text, else `None`. -/
def identifyFrom (idents : List (List Char × List Char)) (text : List Char) :
    Option (List Char) :=
  match idents with
  | [] => none
  | (k, m) :: rest => if isSubstr m text then some k else identifyFrom rest text

/-- `identify_bank` on already-extracted first-page text (PDF reading is
the external collaborator). -/
def identify_bank (text : List Char) : Option (List Char) :=
  identifyFrom bank_identifiers text

/-! ## The transaction table builder (lines 250–258)

```
df = pd.DataFrame(transactions)
if not df.empty:
    df['Date'] = pd.to_datetime(df['Date'], format=pattern.date_out_format)
    df = df.sort_values('Date')
return df
```

`sort_values('Date')` uses the default `kind='quicksort'`, numpy's
introsort over the datetime column's ordinal values.  numpy's reference
(scalar) implementation — `npysort` — partitions while the segment length
exceeds 16 (`SMALL_QUICKSORT = 15`, condition `pr - pl > 15`) using a
median-of-3 pivot, finishing small segments with a (stable) insertion
sort, and falls back to heapsort when a single shared depth budget of
`2*⌊log2 n⌋` partitions is exhausted.  The partition step swaps elements
with equal keys, so the sort is **not stable**.  `pandasSortValues`
reproduces that algorithm; for a whole array of at most 16 elements the
algorithm is exactly one stable insertion pass, implemented directly over
lists as `npSmallSort` (the two forms compute the same list).  Recent
numpy builds may dispatch to an AVX-512 sorting network instead of the
scalar path — also unstable, with a different tie permutation; the scalar
reference path is what is modelled. -/

/-- A row of the final `DataFrame`: the `Date` column converted to a
datetime (the encoded `Nat`), other columns as in `Tx`. -/
structure Row where
  date : Nat
  Description : List Char
  Amount : Rat
  txnType : List Char
  deriving DecidableEq, Inhabited

/-- `pd.to_datetime(df['Date'], format=…)` for one row. -/
def rowOf (fmt : DateFormat) (t : Tx) : Option Row :=
  (parseDate fmt t.Date).map fun dt =>
    { date := dt, Description := t.Description, Amount := t.Amount, txnType := t.txnType }

/-- The sort key: the `Date` column. -/
def rkey (r : Row) : Nat := r.date

/-- Element access used by the numpy model; reads never go out of range on
the paths actually taken (the pivot sentinels bound the scans). -/
def elemAt (a : List Row) (i : Nat) : Row := (a.get? i).getD default

/-- Key at an index. -/
def keyAt (a : List Row) (i : Nat) : Nat := rkey (elemAt a i)

/-- Swap two positions. -/
def swapL (a : List Row) (i j : Nat) : List Row :=
  let x := elemAt a i
  let y := elemAt a j
  (a.set i y).set j x

/-- numpy insertion sort over lists: insert each element after all
elements with a key not greater than its own (the `while LT(vp, v[pk])`
shift loop) — the stable insertion. -/
def insertNp (x : Row) : List Row → List Row
  | [] => [x]
  | y :: ys => if rkey x < rkey y then x :: y :: ys else y :: insertNp x ys

/-- The whole-array insertion sort numpy performs when the initial segment
has at most 16 elements: elements taken left to right, each inserted
stably into the sorted prefix. -/
def npSmallSort (l : List Row) : List Row := l.foldl (fun acc x => insertNp x acc) []

/-- `do ++pi while v[pi] < vp` — returns the new `pi`. -/
def scanUp : Nat → List Row → Nat → Nat → Nat
  | 0, _, _, i => i + 1
  | f + 1, a, vp, i => if keyAt a (i + 1) < vp then scanUp f a vp (i + 1) else i + 1

/-- `do --pj while vp < v[pj]` — returns the new `pj`. -/
def scanDown : Nat → List Row → Nat → Nat → Nat
  | 0, _, _, j => j - 1
  | f + 1, a, vp, j => if vp < keyAt a (j - 1) then scanDown f a vp (j - 1) else j - 1

/-- The partition exchange loop; returns the array and the final `pi`. -/
def partLoop : Nat → List Row → Nat → Nat → Nat → (List Row × Nat)
  | 0, a, _, i, _ => (a, i)
  | f + 1, a, vp, i, j =>
    let i' := scanUp (a.length + 1) a vp i
    let j' := scanDown (a.length + 1) a vp j
    if j' ≤ i' then (a, i')
    else partLoop f (swapL a i' j') vp i' j'

/-- Heap getter, 1-based position within the segment starting at `pl`. -/
def hsGet (a : List Row) (pl p : Nat) : Row := elemAt a (pl + p - 1)

/-- Heap setter, 1-based position. -/
def hsSet (a : List Row) (pl p : Nat) (v : Row) : List Row := a.set (pl + p - 1) v

/-- Heap key, 1-based position. -/
def hsKey (a : List Row) (pl p : Nat) : Nat := rkey (hsGet a pl p)

/-- Sift-down of numpy's heapsort (the depth-exhaustion fallback). -/
def siftDown : Nat → List Row → Nat → Row → Nat → Nat → Nat → List Row
  | 0, a, pl, tmp, i, _, _ => hsSet a pl i tmp
  | f + 1, a, pl, tmp, i, j, n =>
    if n < j then hsSet a pl i tmp
    else
      let j' := if j < n ∧ hsKey a pl j < hsKey a pl (j + 1) then j + 1 else j
      if rkey tmp < hsKey a pl j' then
        siftDown f (hsSet a pl i (hsGet a pl j')) pl tmp j' (2 * j') n
      else hsSet a pl i tmp

/-- Heap construction phase. -/
def hsBuild : Nat → List Row → Nat → Nat → Nat → List Row
  | 0, a, _, _, _ => a
  | f + 1, a, pl, l, n =>
    if l = 0 then a
    else hsBuild f (siftDown (n + 2) a pl (hsGet a pl l) l (2 * l) n) pl (l - 1) n

/-- Heap extraction phase. -/
def hsExtract : Nat → List Row → Nat → Nat → List Row
  | 0, a, _, _ => a
  | f + 1, a, pl, n =>
    if n ≤ 1 then a
    else
      let tmp := hsGet a pl n
      let a1 := hsSet a pl n (hsGet a pl 1)
      let n' := n - 1
      hsExtract f (siftDown (n' + 2) a1 pl tmp 1 2 n') pl n'

/-- numpy heapsort of the segment `[pl, pr]` (both inclusive). -/
def heapsortRange (a : List Row) (pl pr : Nat) : List Row :=
  let n := pr + 1 - pl
  hsExtract (n + 1) (hsBuild (n + 1) a pl (n / 2) n) pl n

/-- One element of the in-segment insertion sort: shift greater elements
up, return the array and the insertion position. -/
def insShift : Nat → List Row → Row → Nat → Nat → (List Row × Nat)
  | 0, a, _, _, pj => (a, pj)
  | f + 1, a, v, pl, pj =>
    if pl < pj ∧ rkey v < keyAt a (pj - 1) then
      insShift f (a.set pj (elemAt a (pj - 1))) v pl (pj - 1)
    else (a, pj)

/-- The in-segment insertion sort loop of numpy's quicksort. -/
def insLoop : Nat → List Row → Nat → Nat → Nat → List Row
  | 0, a, _, _, _ => a
  | f + 1, a, pl, pi, pr =>
    if pr < pi then a
    else
      let v := elemAt a pi
      let st := insShift (a.length + 1) a v pl pi
      insLoop f (st.1.set st.2 v) pl (pi + 1) pr

/-- Insertion sort of the segment `[pl, pr]`. -/
def insertionRange (a : List Row) (pl pr : Nat) : List Row :=
  insLoop (a.length + 1) a pl (pl + 1) pr

/-- numpy introsort on the segment `[pl, pr]`, threading the shared depth
budget `dl` (heapsort on exhaustion); the explicit work stack of the C
implementation — smaller partition processed first, larger pushed — is the
recursion order here. -/
def qsLoop : Nat → List Row → Nat → Nat → Int → (List Row × Int)
  | 0, a, _, _, dl => (a, dl)
  | f + 1, a, pl, pr, dl =>
    if pl + 15 < pr then
      if dl < 0 then (heapsortRange a pl pr, dl - 1)
      else
        let dl' := dl - 1
        let pm := pl + (pr - pl) / 2
        let a1 := if keyAt a pm < keyAt a pl then swapL a pm pl else a
        let a2 := if keyAt a1 pr < keyAt a1 pm then swapL a1 pr pm else a1
        let a3 := if keyAt a2 pm < keyAt a2 pl then swapL a2 pm pl else a2
        let vp := keyAt a3 pm
        let a4 := swapL a3 pm (pr - 1)
        let st := partLoop (a4.length + 1) a4 vp pl (pr - 1)
        let a6 := swapL st.1 st.2 (pr - 1)
        let pi := st.2
        if pi - pl < pr - pi then
          let r1 := qsLoop f a6 pl (pi - 1) dl'
          qsLoop f r1.1 (pi + 1) pr r1.2
        else
          let r1 := qsLoop f a6 (pi + 1) pr dl'
          qsLoop f r1.1 pl (pi - 1) r1.2
    else (insertionRange a pl pr, dl)

/-- `df.sort_values('Date')` with the default `kind='quicksort'` (see the
section comment): at most 16 rows is a single stable insertion pass
(`npSmallSort`, identical to `insertionRange` over the whole array);
larger frames run the unstable introsort. -/
def pandasSortValues (rows : List Row) : List Row :=
  if rows.length ≤ 16 then npSmallSort rows
  else (qsLoop rows.length rows 0 (rows.length - 1) (2 * (Nat.log2 rows.length : Int))).1

/-- The final `DataFrame`. -/
structure Df where
  rows : List Row
  deriving DecidableEq

/-- Lines 250–258: build the frame, convert the `Date` column (a failure
there raises, caught by the outer handler) and sort. -/
def buildTable (recs : List Tx) (fmt : DateFormat) : Except PyExn Df :=
  if recs.isEmpty then .ok ⟨[]⟩
  else
    match recs.mapM (rowOf fmt) with
    | some rows => .ok ⟨pandasSortValues rows⟩
    | none => .error (.valueError "to_datetime".toList)

/-! ## `extract_transactions_from_region` (lines 155–264) -/

/-- The body of `extract_transactions_from_region` up to `return df`:
resolve the pattern argument, process each line, build the table.  PDF
reading and cropping (lines 170–179) belong to the external collaborator;
the function receives the region's lines as match outcomes (see header). -/
def extractTransactionsCore (arg : BankPatternArg) (lines : List LineMatch) :
    Except PyExn Df :=
  match getPattern arg with
  | .error e => .error e
  | .ok p => buildTable (extractRecords p lines) p.date_out_format

/-- `extract_transactions_from_region` including its blanket
`except Exception` (lines 260–264), which turns *any* internal error —
including the unknown-bank `ValueError` — into an empty `DataFrame`
returned normally. -/
def extract_transactions_from_region (arg : BankPatternArg) (lines : List LineMatch) : Df :=
  match extractTransactionsCore arg lines with
  | .ok df => df
  | .error _ => ⟨[]⟩

/-! ## Helper lemmas: string primitives -/

/-- The characters that can occur in a thousands-separated decimal numeral. -/
def isNumChar (c : Char) : Bool := c.isDigit || c == ',' || c == '.'

lemma space_not_numChar {c : Char} (h : isSpaceChar c = true) : isNumChar c = false := by
  simp only [isSpaceChar, Bool.or_eq_true, beq_iff_eq] at h
  rcases h with ((((h | h) | h) | h) | h) | h <;> subst h <;> decide

lemma numChar_not_space {c : Char} (h : isNumChar c = true) : isSpaceChar c = false := by
  cases hs : isSpaceChar c with
  | false => rfl
  | true => rw [space_not_numChar hs] at h; exact absurd h (by simp)

lemma startsWith_self (l : List Char) : startsWith l l = true := by
  induction l with
  | nil => rfl
  | cons x xs ih => simp [startsWith, ih]

lemma startsWith_head_eq {c : Char} {cs : List Char} {y : Char} {ys : List Char}
    (h : startsWith (c :: cs) (y :: ys) = true) : c = y := by
  simp only [startsWith, Bool.and_eq_true, beq_iff_eq] at h
  exact h.1

lemma isSubstr_append_self (l pat : List Char) : isSubstr pat (l ++ pat) = true := by
  induction l with
  | nil =>
    cases pat with
    | nil => rfl
    | cons p ps => simp [isSubstr, startsWith_self]
  | cons x xs ih => simp [isSubstr, ih]

lemma isSubstr_eq_false {c0 : Char} {cs s : List Char} (h : c0 ∉ s) :
    isSubstr (c0 :: cs) s = false := by
  induction s with
  | nil => rfl
  | cons y ys ih =>
    have hne : c0 ≠ y := fun he => h (he ▸ List.mem_cons_self y ys)
    have hsw : startsWith (c0 :: cs) (y :: ys) = false := by
      cases hsw : startsWith (c0 :: cs) (y :: ys) with
      | false => rfl
      | true => exact absurd (startsWith_head_eq hsw) hne
    simp only [isSubstr, hsw, Bool.false_or]
    exact ih (fun hm => h (List.mem_cons_of_mem y hm))

lemma removeAll_nil (pat : List Char) : removeAll pat [] = [] := rfl

lemma removeAllF_nil (pat : List Char) (f : Nat) : removeAllF pat f [] = [] := by
  cases f <;> rfl

lemma removeAll_append_notMem {c0 : Char} {cs : List Char} :
    ∀ {l : List Char} (r : List Char), c0 ∉ l →
      removeAll (c0 :: cs) (l ++ r) = l ++ removeAll (c0 :: cs) r
  | [], r, _ => by simp [removeAll]
  | x :: l', r, h => by
    have hne : c0 ≠ x := fun he => h (he ▸ List.mem_cons_self x l')
    have hsw : startsWith (c0 :: cs) (x :: (l' ++ r)) = false := by
      cases hsw : startsWith (c0 :: cs) (x :: (l' ++ r)) with
      | false => rfl
      | true => exact absurd (startsWith_head_eq hsw) hne
    show removeAllF (c0 :: cs) (x :: (l' ++ r)).length (x :: (l' ++ r)) = _
    rw [List.length_cons, removeAllF, if_neg (by simp [hsw])]
    rw [show removeAllF (c0 :: cs) (l' ++ r).length (l' ++ r) = removeAll (c0 :: cs) (l' ++ r)
          from rfl,
        removeAll_append_notMem r (fun hm => h (List.mem_cons_of_mem x hm))]
    simp

lemma removeAll_self (c0 : Char) (cs : List Char) :
    removeAll (c0 :: cs) (c0 :: cs) = [] := by
  show removeAllF (c0 :: cs) (c0 :: cs).length (c0 :: cs) = []
  rw [List.length_cons, removeAllF, if_pos ⟨by simp, startsWith_self _⟩,
      show (c0 :: cs).drop (c0 :: cs).length = [] from List.drop_length _, removeAllF_nil]

lemma removeAll_singleton (c : Char) (s : List Char) :
    removeAll [c] s = s.filter (fun x => x != c) := by
  induction s with
  | nil => simp [removeAll, removeAllF_nil]
  | cons x ss ih =>
    show removeAllF [c] (x :: ss).length (x :: ss) = _
    rw [List.length_cons]
    by_cases hx : c = x
    · subst hx
      rw [removeAllF, if_pos ⟨by simp, by simp [startsWith]⟩]
      simp only [List.length_singleton, List.drop_one, List.tail_cons]
      rw [show removeAllF [c] ss.length ss = removeAll [c] ss from rfl, ih]
      simp [List.filter]
    · rw [removeAllF, if_neg (fun hh => hx (startsWith_head_eq hh.2))]
      simp only [List.filter]
      have hne : (x != c) = true := by simp [bne_iff_ne]; exact fun he => hx he.symm
      rw [hne, show removeAllF [c] ss.length ss = removeAll [c] ss from rfl, ih]

lemma dropWhile_eq_self_of {p : Char → Bool} {l : List Char}
    (h : ∀ c ∈ l, p c = false) : l.dropWhile p = l := by
  cases l with
  | nil => rfl
  | cons x xs => simp [List.dropWhile_cons, h x (List.mem_cons_self x xs)]

lemma strip_eq_self {l : List Char} (h : ∀ c ∈ l, isSpaceChar c = false) : strip l = l := by
  unfold strip stripLeading stripTrailing
  rw [dropWhile_eq_self_of h,
      dropWhile_eq_self_of (fun c hc => h c (List.mem_reverse.mp hc)), List.reverse_reverse]

lemma stripTrailing_append_space {l : List Char} (h : ∀ c ∈ l, isSpaceChar c = false) :
    stripTrailing (l ++ [' ']) = l := by
  unfold stripTrailing
  have hrev : (l ++ [' ']).reverse = ' ' :: l.reverse := by simp
  rw [hrev, List.dropWhile_cons, if_pos (by decide),
      dropWhile_eq_self_of (fun c hc => h c (List.mem_reverse.mp hc)), List.reverse_reverse]

lemma strip_append_space {l : List Char} (h : ∀ c ∈ l, isSpaceChar c = false) :
    strip (l ++ [' ']) = l := by
  cases l with
  | nil => decide
  | cons x xs =>
    unfold strip stripLeading
    rw [List.cons_append, List.dropWhile_cons,
        if_neg (by simp [h x (List.mem_cons_self x xs)])]
    exact stripTrailing_append_space h

lemma pyIndex_mem {l : List α} {i : Int} {x : α} (h : pyIndex l i = some x) : x ∈ l := by
  unfold pyIndex at h
  split at h
  · split at h
    · exact List.get?_mem h
    · exact absurd h (by simp)
  · exact List.get?_mem h

/-! ## Helper lemmas: the per-line pipeline -/

lemma processLine_skip_of_none_mem (p : BankPattern) {g : List (Option (List Char))}
    (h : none ∈ g) : processLine p (some g) = none := by
  have hany : g.any (fun x => x == none) = true := by
    simp only [List.any_eq_true]
    exact ⟨none, h, by simp⟩
  simp only [processLine, Option.some_bind]
  rw [if_pos hany]

lemma processLine_eq (p : BankPattern) (g : List (Option (List Char)))
    (hany : g.any (fun x => x == none) = false)
    {ds : List Char} (hds : getGroup g (p.date_group - 1) = some ds)
    {d : Nat} (hd : parseDate p.date_format ds = some d)
    {dsc : List Char} (hdsc : getGroup g (p.desc_group - 1) = some dsc)
    {raw : List Char} (hraw : getGroup g (p.amount_group - 1) = some raw)
    {v : Rat} (hv : parseFloat (cleanAmount p raw) = some v)
    {b : Bool} (hb : isCreditOf p g raw = some b) :
    processLine p (some g) =
      some { Date := formatDate p.date_out_format d
             Description := strip dsc
             Amount := if b then v else -v
             txnType := if b then p.credit_identifier else p.debit_identifier } := by
  have hcond : ¬ (g.any (fun x => x == none) = true) := by simp [hany]
  simp only [processLine, Option.some_bind]
  rw [if_neg hcond, hds, Option.some_bind, hd, Option.some_bind, hdsc, Option.some_bind,
      hraw, Option.some_bind, hv, Option.some_bind, hb, Option.some_bind]

lemma processLine_inv {p : BankPattern} {g : List (Option (List Char))} {r : Tx}
    (h : processLine p (some g) = some r) :
    ∃ ds d dsc raw v b,
      getGroup g (p.date_group - 1) = some ds ∧
      parseDate p.date_format ds = some d ∧
      getGroup g (p.desc_group - 1) = some dsc ∧
      getGroup g (p.amount_group - 1) = some raw ∧
      parseFloat (cleanAmount p raw) = some v ∧
      isCreditOf p g raw = some b ∧
      r = { Date := formatDate p.date_out_format d
            Description := strip dsc
            Amount := if b then v else -v
            txnType := if b then p.credit_identifier else p.debit_identifier } := by
  simp only [processLine, Option.some_bind] at h
  by_cases hany : g.any (fun x => x == none) = true
  · simp [hany] at h
  · rw [if_neg hany] at h
    obtain ⟨ds, hds, h⟩ := Option.bind_eq_some.mp h
    obtain ⟨d, hd, h⟩ := Option.bind_eq_some.mp h
    obtain ⟨dsc, hdsc, h⟩ := Option.bind_eq_some.mp h
    obtain ⟨raw, hraw, h⟩ := Option.bind_eq_some.mp h
    obtain ⟨v, hv, h⟩ := Option.bind_eq_some.mp h
    obtain ⟨b, hb, h⟩ := Option.bind_eq_some.mp h
    exact ⟨ds, d, dsc, raw, v, b, hds, hd, hdsc, hraw, hv, hb, (Option.some_inj.mp h).symm⟩

/-! ## Helper lemmas: the small-frame (stable) sort path -/

/-- The table's ordering invariant: non-decreasing in the `Date` column. -/
abbrev DateSorted (l : List Row) : Prop := l.Pairwise (fun a b => rkey a ≤ rkey b)

lemma mem_insertNp {x z : Row} : ∀ {l : List Row}, z ∈ insertNp x l ↔ z = x ∨ z ∈ l
  | [] => by simp [insertNp]
  | y :: ys => by
    rw [insertNp]
    by_cases hlt : rkey x < rkey y
    · simp [hlt]
    · rw [if_neg hlt]
      simp only [List.mem_cons, @mem_insertNp x z ys]
      tauto

lemma sorted_insertNp {x : Row} : ∀ {l : List Row}, DateSorted l → DateSorted (insertNp x l)
  | [], _ => by simp [insertNp]
  | y :: ys, h => by
    rw [insertNp]
    rcases List.pairwise_cons.mp h with ⟨hy, hys⟩
    by_cases hlt : rkey x < rkey y
    · rw [if_pos hlt]
      refine List.pairwise_cons.mpr ⟨?_, h⟩
      intro z hz
      rcases List.mem_cons.mp hz with rfl | hz'
      · exact le_of_lt hlt
      · exact le_trans (le_of_lt hlt) (hy z hz')
    · rw [if_neg hlt]
      refine List.pairwise_cons.mpr ⟨?_, sorted_insertNp hys⟩
      intro z hz
      rcases mem_insertNp.mp hz with rfl | hz'
      · exact le_of_not_lt hlt
      · exact hy z hz'

lemma filter_insertNp (k : Nat) (x : Row) : ∀ {l : List Row}, DateSorted l →
    (insertNp x l).filter (fun r => r.date == k) =
      l.filter (fun r => r.date == k) ++ (if x.date == k then [x] else [])
  | [], _ => by
    cases hc : x.date == k <;> simp [insertNp, List.filter_cons, hc]
  | y :: ys, h => by
    rcases List.pairwise_cons.mp h with ⟨hy, hys⟩
    rw [insertNp]
    by_cases hlt : rkey x < rkey y
    · rw [if_pos hlt]
      cases hc : x.date == k with
      | true =>
        have hxk : x.date = k := by simpa using hc
        have hempty : (y :: ys).filter (fun r => r.date == k) = [] := by
          rw [List.filter_eq_nil_iff]
          intro z hz
          have hyz : rkey y ≤ rkey z := by
            rcases List.mem_cons.mp hz with rfl | hz'
            · exact le_refl _
            · exact hy z hz'
          have hky : k < rkey y := by
            rw [← hxk]
            exact hlt
          have hkz : k < rkey z := lt_of_lt_of_le hky hyz
          simp only [beq_iff_eq, rkey] at hkz ⊢
          omega
        simp [List.filter_cons, hc, hempty]
      | false => simp [List.filter_cons, hc]
    · rw [if_neg hlt]
      cases hcy : y.date == k <;>
        simp [List.filter_cons, hcy, filter_insertNp k x hys]

lemma npSmallSort_go : ∀ (l acc : List Row), DateSorted acc →
    DateSorted (l.foldl (fun a x => insertNp x a) acc) ∧
    ∀ k, (l.foldl (fun a x => insertNp x a) acc).filter (fun r => r.date == k) =
      acc.filter (fun r => r.date == k) ++ l.filter (fun r => r.date == k)
  | [], acc, h => by simp [h]
  | x :: l, acc, h => by
    rw [List.foldl_cons]
    obtain ⟨hs, hf⟩ := npSmallSort_go l (insertNp x acc) (sorted_insertNp h)
    refine ⟨hs, fun k => ?_⟩
    rw [hf k, filter_insertNp k x h]
    cases hc : x.date == k <;> simp [List.filter_cons, hc]

lemma npSmallSort_sorted (l : List Row) : DateSorted (npSmallSort l) :=
  (npSmallSort_go l [] (by simp)).1

lemma npSmallSort_filter (l : List Row) (k : Nat) :
    (npSmallSort l).filter (fun r => r.date == k) = l.filter (fun r => r.date == k) := by
  have h := (npSmallSort_go l [] (by simp)).2 k
  simpa [npSmallSort] using h

/-! ## Shared concrete inputs for witnesses and counterexamples -/

/-- A pattern with `type_group` and `credit_suffix` both unset — the
configuration §4.1 of the spec calls a `ConfigurationError`. -/
def bothNonePattern : BankPattern :=
  { name := "X".toList
    pattern := "(x)".toList
    date_format := .dby2
    type_group := none
    credit_suffix := none }

/-- A matched SBI-style debit line (groups of the SBI regex). -/
def demoGroupsDebit : List (Option (List Char)) :=
  [some "01 Jan 24".toList, some "GROCERY STORE ".toList, some "1,234.50".toList,
   some "D".toList]

/-- A matched SBI-style credit line. -/
def demoGroupsCredit : List (Option (List Char)) :=
  [some "02 Jan 24".toList, some "SALARY".toList, some "50,000.00".toList, some "C".toList]

/-- A matched line for the three-group `bothNonePattern`. -/
def demoGroups10 : List (Option (List Char)) :=
  [some "01 Jan 24".toList, some "FEE".toList, some "10.00".toList]

/-- The record the extractor produces from `demoGroups10`. -/
def demoRec10 : Tx :=
  { Date := "01 Jan 24".toList, Description := "FEE".toList, Amount := -10,
    txnType := "D".toList }

/-! ## C2 -/

/-- C2 counterexample: a `BankPattern` with both `type_group` and
`credit_suffix` absent is accepted without any error — `getPattern`
returns it unchanged, and extraction proceeds on a matched line, emitting
a (debit) record.  This refutes the claim that such a Pattern "fails with
a ConfigurationError before any extraction is attempted" (the source
defines no `ConfigurationError` and performs no validation). -/
theorem C2_cex :
    getPattern (.pat bothNonePattern) = .ok bothNonePattern ∧
    processLine bothNonePattern
        (some [some "01 Jan 24".toList, some "GROCERY".toList, some "1234.00".toList]) =
      some { Date := "01 Jan 24".toList, Description := "GROCERY".toList, Amount := -1234,
             txnType := "D".toList } :=
  ⟨rfl, by decide⟩

/-- C2 (amended): patterns are never validated — any `BankPattern` object,
including one with `typeGroup` and `creditSuffix` both absent (or both
present), is accepted as-is by `extract_transactions_from_region`, which
then proceeds straight to line extraction; no configuration error exists
in the code. -/
theorem C2_no_validation (p : BankPattern) (lines : List LineMatch) :
    getPattern (.pat p) = .ok p ∧
    extractTransactionsCore (.pat p) lines =
      buildTable (extractRecords p lines) p.date_out_format :=
  ⟨rfl, rfl⟩

/-! ## C3 -/

/-- C3 counterexample: looking up the unknown bank key `"icici"` does
raise `ValueError("Unknown bank pattern: …")` internally, but
`extract_transactions_from_region` catches it (lines 260–264) and
completes normally, returning an empty `DataFrame` — refuting the claim
that the extraction call "does not complete normally with a result
table". -/
theorem C3_cex :
    extractTransactionsCore (.key "icici".toList) [] =
      .error (.valueError (unknownMsg "icici".toList)) ∧
    extract_transactions_from_region (.key "icici".toList) [] = ⟨[]⟩ :=
  ⟨rfl, rfl⟩

/-- C3 (amended): for every bank key not present in `BANK_PATTERNS`
(after lowercasing), the lookup raises `ValueError("Unknown bank
pattern: …")` internally, but the blanket exception handler of
`extract_transactions_from_region` swallows it, so the invocation
completes normally with an empty table — indistinguishable from a
statement containing no transactions. -/
theorem C3_unknown_key (k : List Char) (h : lookupBank (toLowerList k) = none) :
    getPattern (.key k) = .error (.valueError (unknownMsg k)) ∧
    ∀ lines, extract_transactions_from_region (.key k) lines = ⟨[]⟩ := by
  have hg : getPattern (.key k) = .error (.valueError (unknownMsg k)) := by
    simp [getPattern, h]
  exact ⟨hg, fun lines => by
    simp [extract_transactions_from_region, extractTransactionsCore, hg]⟩

/-- C3 witness: the key `"ICICI"` is not in the registry, and extraction
with it completes normally with an empty table. -/
theorem C3_witness :
    lookupBank (toLowerList "ICICI".toList) = none ∧
    extract_transactions_from_region (.key "ICICI".toList) [] = ⟨[]⟩ :=
  ⟨by decide, (C3_unknown_key "ICICI".toList (by decide)).2 []⟩

/-! ## C6 -/

/-- C6: a line on which extraction fails (regex non-match, partial match,
unparseable date or amount — all the cases where `processLine` yields
`none`) contributes nothing and does not disturb the remaining lines: the
record list, and the final table, are the same as if the line were absent.
Skipping happens by `continue`, never by raising, since `processLine` is
total. -/
theorem C6_line_independence (p : BankPattern) (xs ys : List LineMatch) (l : LineMatch)
    (h : processLine p l = none) :
    extractRecords p (xs ++ l :: ys) = extractRecords p (xs ++ ys) ∧
    extract_transactions_from_region (.pat p) (xs ++ l :: ys) =
      extract_transactions_from_region (.pat p) (xs ++ ys) := by
  have hrec : extractRecords p (xs ++ l :: ys) = extractRecords p (xs ++ ys) := by
    simp [extractRecords, List.filterMap_append, List.filterMap_cons, h]
  exact ⟨hrec, by
    simp [extract_transactions_from_region, extractTransactionsCore, getPattern, hrec]⟩

/-- C6 witness: dropping a non-matching line between two good SBI lines
leaves the result unchanged. -/
theorem C6_witness :
    processLine sbiPattern none = none ∧
    extract_transactions_from_region (.pat sbiPattern)
        ([some demoGroupsDebit] ++ none :: [some demoGroupsCredit]) =
      extract_transactions_from_region (.pat sbiPattern)
        ([some demoGroupsDebit] ++ [some demoGroupsCredit]) :=
  ⟨rfl,
   (C6_line_independence sbiPattern [some demoGroupsDebit] [some demoGroupsCredit] none
       rfl).2⟩

/-! ## C7 -/

/-- C7: bank identification scans the registry in insertion order and
returns the first entry whose marker occurs as a substring of the page
text (in particular, when several markers occur, the earliest entry
wins); when no marker occurs it returns `none`, a normal value, not an
exception. -/
theorem C7_identify (idents : List (List Char × List Char)) (text : List Char) :
    (∀ pre k m post, idents = pre ++ (k, m) :: post →
      (∀ km ∈ pre, isSubstr km.2 text = false) →
      isSubstr m text = true →
      identifyFrom idents text = some k) ∧
    ((∀ km ∈ idents, isSubstr km.2 text = false) → identifyFrom idents text = none) := by
  constructor
  · intro pre k m post heq hpre hm
    subst heq
    induction pre with
    | nil => simp [identifyFrom, hm]
    | cons a pre ih =>
      obtain ⟨ka, ma⟩ := a
      rw [List.cons_append, identifyFrom,
          if_neg (by simp [hpre (ka, ma) (List.mem_cons_self _ _)])]
      exact ih (fun km hkm => hpre km (List.mem_cons_of_mem _ hkm))
  · intro hall
    induction idents with
    | nil => rfl
    | cons a rest ih =>
      obtain ⟨ka, ma⟩ := a
      rw [identifyFrom, if_neg (by simp [hall (ka, ma) (List.mem_cons_self _ _)])]
      exact ih (fun km hkm => hall km (List.mem_cons_of_mem _ hkm))

/-- Page text in which both banks' markers occur. -/
def bothMarkersText : List Char := "HDFC Bank Credit Cards GSTIN of SBI Card".toList

/-- C7 witness: on text containing both markers, the first registry entry
(`hdfc`) wins; on text with no marker the result is `none`. -/
theorem C7_witness :
    identify_bank bothMarkersText = some "hdfc".toList ∧
    isSubstr "GSTIN of SBI Card".toList bothMarkersText = true ∧
    identify_bank "no markers here".toList = none :=
  ⟨(C7_identify bank_identifiers bothMarkersText).1 [] "hdfc".toList
      "HDFC Bank Credit Cards GSTIN".toList [("sbi".toList, "GSTIN of SBI Card".toList)]
      rfl (by simp) (by decide),
   by decide,
   (C7_identify bank_identifiers "no markers here".toList).2 (by decide)⟩

/-! ## C8 -/

/-- C8: a matched line in which a referenced capture group (`date_group`,
`desc_group`, `amount_group`, or `type_group` when present) captured
nothing yields no record — `processLine` is total, so nothing is raised;
the line is skipped by the `any(g is None …)` check at line 195, which
covers every referenced group. -/
theorem C8_missing_referenced_group (p : BankPattern) (g : List (Option (List Char)))
    (h : pyIndex g (p.date_group - 1) = some none ∨
         pyIndex g (p.desc_group - 1) = some none ∨
         pyIndex g (p.amount_group - 1) = some none ∨
         (∃ tg, p.type_group = some tg ∧ pyIndex g (tg - 1) = some none)) :
    processLine p (some g) = none := by
  have hmem : (none : Option (List Char)) ∈ g := by
    rcases h with h | h | h | ⟨tg, _, h⟩ <;> exact pyIndex_mem h
  exact processLine_skip_of_none_mem p hmem

/-- C8 witness: an SBI-style line whose date group captured nothing is
skipped. -/
theorem C8_witness :
    processLine sbiPattern
      (some [none, some "CLOSING BALANCE".toList, some "99.00".toList, some "C".toList]) =
      none :=
  C8_missing_referenced_group sbiPattern _ (Or.inl (by decide))

/-! ## C9 -/

/-- C9: the missing-group check quantifies over *all* capture groups of
the match (`any(g is None for g in groups)`, line 195): a matched line is
skipped whenever any group — referenced or not — captured nothing. -/
theorem C9_any_missing_group (p : BankPattern) (g : List (Option (List Char)))
    (h : none ∈ g) : processLine p (some g) = none :=
  processLine_skip_of_none_mem p h

/-- C9 witness: for `bothNonePattern` only groups 1–3 are referenced, yet
a line whose (unreferenced) fourth group captured nothing is skipped. -/
theorem C9_witness :
    processLine bothNonePattern
      (some [some "01 Jan 24".toList, some "A".toList, some "1.00".toList, none]) = none :=
  C9_any_missing_group bothNonePattern _ (by decide)

/-! ## C10 -/

/-- C10: for a pattern with `type_group` and `credit_suffix` both unset,
`is_credit` is always falsy (lines 226–236), so every emitted record has
the pattern's `debit_identifier` as its type and its amount is the
negation of the parsed amount — no line is ever classified as credit. -/
theorem C10_both_absent_always_debit (p : BankPattern) (h1 : p.type_group = none)
    (h2 : p.credit_suffix = none) (g : List (Option (List Char))) (r : Tx)
    (h : processLine p (some g) = some r) :
    r.txnType = p.debit_identifier ∧
    ∃ raw v, getGroup g (p.amount_group - 1) = some raw ∧
      parseFloat (cleanAmount p raw) = some v ∧ r.Amount = -v := by
  obtain ⟨ds, d, dsc, raw, v, b, hds, hd, hdsc, hraw, hv, hb, hr⟩ := processLine_inv h
  have hbf : b = false := by
    rw [isCreditOf, h1] at hb
    simp [pyTruthy, h2] at hb
    exact hb
  subst hbf
  subst hr
  exact ⟨by simp, raw, v, hraw, hv, by simp⟩

/-- C10 witness: a line of `bothNonePattern` parses to a debit record with
negated amount. -/
theorem C10_witness :
    processLine bothNonePattern (some demoGroups10) = some demoRec10 ∧
    demoRec10.txnType = bothNonePattern.debit_identifier :=
  have h : processLine bothNonePattern (some demoGroups10) = some demoRec10 := by decide
  ⟨h, (C10_both_absent_always_debit bothNonePattern rfl rfl demoGroups10 demoRec10 h).1⟩

/-! ## C5 -/

/-- C5: for a pattern classifying by `type_group` (a truthy group index),
a matched line whose type-group text equals `credit_identifier` yields a
record with positive amount `v` and type `credit_identifier`; any other
type-group value yields amount `-v` and type `debit_identifier` — the
type characters emitted are the pattern's own markers. -/
theorem C5_type_group_classification (p : BankPattern) (g : List (Option (List Char)))
    (tg : Int) (htg : p.type_group = some tg) (htg0 : tg ≠ 0)
    (hany : g.any (fun x => x == none) = false)
    (ds : List Char) (hds : getGroup g (p.date_group - 1) = some ds)
    (d : Nat) (hd : parseDate p.date_format ds = some d)
    (dsc : List Char) (hdsc : getGroup g (p.desc_group - 1) = some dsc)
    (raw : List Char) (hraw : getGroup g (p.amount_group - 1) = some raw)
    (v : Rat) (hv : parseFloat (cleanAmount p raw) = some v) (hvpos : 0 < v)
    (t : List Char) (ht : pyIndex g (tg - 1) = some (some t)) :
    (t = p.credit_identifier →
      processLine p (some g) =
        some { Date := formatDate p.date_out_format d, Description := strip dsc,
               Amount := v, txnType := p.credit_identifier } ∧
      0 < v) ∧
    (t ≠ p.credit_identifier →
      processLine p (some g) =
        some { Date := formatDate p.date_out_format d, Description := strip dsc,
               Amount := -v, txnType := p.debit_identifier } ∧
      -v < 0) := by
  have htruthy : pyTruthy p.type_group = true := by
    rw [htg]
    simp [pyTruthy, htg0]
  have hcr : isCreditOf p g raw = some (t == p.credit_identifier) := by
    rw [isCreditOf, if_pos htruthy, htg]
    simp [ht]
  constructor
  · intro hteq
    refine ⟨?_, hvpos⟩
    have hb : isCreditOf p g raw = some true := by rw [hcr]; simp [hteq]
    rw [processLine_eq p g hany hds hd hdsc hraw hv hb]
    simp
  · intro htne
    refine ⟨?_, neg_lt_zero.mpr hvpos⟩
    have hb : isCreditOf p g raw = some false := by rw [hcr]; simp [htne]
    rw [processLine_eq p g hany hds hd hdsc hraw hv hb]
    simp

/-- C5 witness: the SBI pattern on a `C` line and on a `D` line. -/
theorem C5_witness :
    processLine sbiPattern (some demoGroupsCredit) =
      some { Date := "02 Jan 24".toList, Description := "SALARY".toList,
             Amount := (50000 : Rat), txnType := "C".toList } ∧
    processLine sbiPattern (some demoGroupsDebit) =
      some { Date := "01 Jan 24".toList, Description := "GROCERY STORE".toList,
             Amount := -(mkRat 2469 2), txnType := "D".toList } := by
  constructor
  · exact ((C5_type_group_classification sbiPattern demoGroupsCredit 4 rfl (by decide)
      (by decide) "02 Jan 24".toList (by decide) 20240102 (by decide) "SALARY".toList
      (by decide) "50,000.00".toList (by decide) 50000 (by decide) (by decide)
      "C".toList (by decide)).1 rfl).1
  · exact ((C5_type_group_classification sbiPattern demoGroupsDebit 4 rfl (by decide)
      (by decide) "01 Jan 24".toList (by decide) 20240101 (by decide)
      "GROCERY STORE ".toList (by decide) "1,234.50".toList (by decide) (mkRat 2469 2)
      (by decide) (by decide) "D".toList (by decide)).2 (by decide)).1

/-! ## C4 -/

lemma removeCommas_eq_self {l : List Char} (h : ',' ∉ l) : removeCommas l = l := by
  rw [removeCommas, removeAll_singleton, List.filter_eq_self]
  intro a ha
  simp only [bne_iff_ne, ne_eq]
  exact fun he => h (he ▸ ha)

lemma removeCommas_append (a b : List Char) :
    removeCommas (a ++ b) = removeCommas a ++ removeCommas b := by
  simp [removeCommas, removeAll_singleton, List.filter_append]

lemma mem_removeCommas {c : Char} {l : List Char} (h : c ∈ removeCommas l) : c ∈ l := by
  rw [removeCommas, removeAll_singleton] at h
  exact List.mem_of_mem_filter h

/-- C4: for a pattern classifying by `credit_suffix` (type group absent),
a matched line whose amount-group text is a numeral followed by the
suffix yields a record with positive amount equal to the numeral's value,
and a matched line whose amount-group text is the bare numeral yields a
record with the negated amount.  The numeral is any string of
digits/commas/periods whose comma-stripped form `float()` parses to
`v > 0`; the suffix must not start with a numeral character or a space
and must contain no comma (otherwise the `replace`-based stripping would
corrupt the numeral — the registry's `'Cr'` satisfies all of this). -/
theorem C4_credit_suffix_classification (p : BankPattern)
    (c0 : Char) (cs : List Char) (hcs : p.credit_suffix = some (c0 :: cs))
    (htgn : p.type_group = none)
    (hc0 : isNumChar c0 = false) (hc0sp : c0 ≠ ' ') (hcscomma : ',' ∉ c0 :: cs)
    (num : List Char) (hnum : ∀ c ∈ num, isNumChar c = true)
    (v : Rat) (hval : parseFloat (removeCommas num) = some v) (hvpos : 0 < v)
    (g1 g2 : List (Option (List Char)))
    (hany1 : g1.any (fun x => x == none) = false)
    (hany2 : g2.any (fun x => x == none) = false)
    (ds1 : List Char) (hds1 : getGroup g1 (p.date_group - 1) = some ds1)
    (d1 : Nat) (hd1 : parseDate p.date_format ds1 = some d1)
    (dsc1 : List Char) (hdsc1 : getGroup g1 (p.desc_group - 1) = some dsc1)
    (hraw1 : getGroup g1 (p.amount_group - 1) = some (num ++ ' ' :: c0 :: cs))
    (ds2 : List Char) (hds2 : getGroup g2 (p.date_group - 1) = some ds2)
    (d2 : Nat) (hd2 : parseDate p.date_format ds2 = some d2)
    (dsc2 : List Char) (hdsc2 : getGroup g2 (p.desc_group - 1) = some dsc2)
    (hraw2 : getGroup g2 (p.amount_group - 1) = some num) :
    (processLine p (some g1) =
      some { Date := formatDate p.date_out_format d1, Description := strip dsc1,
             Amount := v, txnType := p.credit_identifier } ∧ 0 < v) ∧
    (processLine p (some g2) =
      some { Date := formatDate p.date_out_format d2, Description := strip dsc2,
             Amount := -v, txnType := p.debit_identifier } ∧ -v < 0) := by
  have hnum' : ∀ c ∈ removeCommas num, isNumChar c = true :=
    fun c hc => hnum c (mem_removeCommas hc)
  have hc0num : c0 ∉ removeCommas num := fun hm => by
    rw [hnum' c0 hm] at hc0
    exact absurd hc0 (by simp)
  have hc0sep : c0 ∉ removeCommas num ++ [' '] := by
    intro hm
    rcases List.mem_append.mp hm with hm | hm
    · exact hc0num hm
    · simp only [List.mem_singleton] at hm
      exact hc0sp hm
  have hnospace : ∀ c ∈ removeCommas num, isSpaceChar c = false :=
    fun c hc => numChar_not_space (hnum' c hc)
  -- the credit side amount text, cleaned
  have hclean1 : cleanAmount p (num ++ ' ' :: c0 :: cs) = removeCommas num := by
    rw [cleanAmount, hcs]
    simp only [List.isEmpty_cons, Bool.false_eq_true, if_false]
    rw [show num ++ ' ' :: c0 :: cs = num ++ (' ' :: c0 :: cs) from rfl,
        removeCommas_append,
        @removeCommas_eq_self (' ' :: c0 :: cs)
          (by
            intro hm
            rcases List.mem_cons.mp hm with hm | hm
            · exact absurd hm.symm (by decide)
            · exact hcscomma hm),
        show removeCommas num ++ ' ' :: c0 :: cs = (removeCommas num ++ [' ']) ++ c0 :: cs
          by simp,
        removeAll_append_notMem (c0 :: cs) hc0sep, removeAll_self]
    rw [List.append_nil]
    exact strip_append_space hnospace
  -- the debit side amount text, cleaned
  have hclean2 : cleanAmount p num = removeCommas num := by
    rw [cleanAmount, hcs]
    simp only [List.isEmpty_cons, Bool.false_eq_true, if_false]
    have h7 : removeAll (c0 :: cs) (removeCommas num) = removeCommas num := by
      have h := @removeAll_append_notMem c0 cs (removeCommas num) [] hc0num
      simpa [removeAll_nil] using h
    rw [h7]
    exact strip_eq_self hnospace
  -- classification on the raw amount text
  have hcr1 : isCreditOf p g1 (num ++ ' ' :: c0 :: cs) = some true := by
    rw [isCreditOf, if_neg (by simp [htgn, pyTruthy]), hcs]
    simp only [List.isEmpty_cons, Bool.false_eq_true, if_false]
    rw [show num ++ ' ' :: c0 :: cs = (num ++ [' ']) ++ c0 :: cs by simp,
        isSubstr_append_self]
  have hcr2 : isCreditOf p g2 num = some false := by
    rw [isCreditOf, if_neg (by simp [htgn, pyTruthy]), hcs]
    simp only [List.isEmpty_cons, Bool.false_eq_true, if_false]
    have hc0nm : c0 ∉ num := fun hm => by
      rw [hnum c0 hm] at hc0
      exact absurd hc0 (by simp)
    rw [isSubstr_eq_false hc0nm]
  have hv1 : parseFloat (cleanAmount p (num ++ ' ' :: c0 :: cs)) = some v := by
    rw [hclean1]; exact hval
  have hv2 : parseFloat (cleanAmount p num) = some v := by
    rw [hclean2]; exact hval
  constructor
  · refine ⟨?_, hvpos⟩
    rw [processLine_eq p g1 hany1 hds1 hd1 hdsc1 hraw1 hv1 hcr1]
    simp
  · refine ⟨?_, neg_lt_zero.mpr hvpos⟩
    rw [processLine_eq p g2 hany2 hds2 hd2 hdsc2 hraw2 hv2 hcr2]
    simp

/-- C4 witness: the HDFC pattern on `"1,234.50 Cr"` (credit, `+1234.50`)
and on `"1,234.50"` (debit, `-1234.50`). -/
theorem C4_witness :
    processLine hdfcPattern
        (some [some "15/08/2024".toList, some "REFUND".toList, some "1,234.50 Cr".toList]) =
      some { Date := "15 Aug 24".toList, Description := "REFUND".toList,
             Amount := mkRat 2469 2, txnType := "C".toList } ∧
    processLine hdfcPattern
        (some [some "15/08/2024".toList, some "SHOP".toList, some "1,234.50".toList]) =
      some { Date := "15 Aug 24".toList, Description := "SHOP".toList,
             Amount := -(mkRat 2469 2), txnType := "D".toList } := by
  have h := C4_credit_suffix_classification hdfcPattern 'C' "r".toList rfl rfl
    (by decide) (by decide) (by decide)
    "1,234.50".toList (by decide)
    (mkRat 2469 2) (by decide) (by decide)
    [some "15/08/2024".toList, some "REFUND".toList, some "1,234.50 Cr".toList]
    [some "15/08/2024".toList, some "SHOP".toList, some "1,234.50".toList]
    (by decide) (by decide)
    "15/08/2024".toList (by decide) 20240815 (by decide) "REFUND".toList (by decide)
    (by decide)
    "15/08/2024".toList (by decide) 20240815 (by decide) "SHOP".toList (by decide)
    (by decide)
  exact ⟨h.1.1, h.2.1⟩

/-! ## C1 -/

/-- One matched SBI-style line, all carrying the same date. -/
def cexLine (tag : List Char) : LineMatch :=
  some [some "01 Jan 24".toList, some tag, some "1.00".toList, some "D".toList]

/-- Seventeen distinct line tags, in input order. -/
def cexTags : List (List Char) :=
  ["L01".toList, "L02".toList, "L03".toList, "L04".toList, "L05".toList, "L06".toList,
   "L07".toList, "L08".toList, "L09".toList, "L10".toList, "L11".toList, "L12".toList,
   "L13".toList, "L14".toList, "L15".toList, "L16".toList, "L17".toList]

/-- Seventeen matched lines with equal dates. -/
def cexLines : List LineMatch := cexTags.map cexLine

/-- The row each of those lines produces, in input order: what a stable
sort (all dates being equal) would have to return. -/
def cexRow (tag : List Char) : Row :=
  { date := 20240101, Description := tag, Amount := -1, txnType := "D".toList }

/-- The input-order row list. -/
def cexStableRows : List Row := cexTags.map cexRow

/-- C1 counterexample: the 17 lines produce rows in input order with all
dates equal (first two conjuncts), so the claimed stable-by-date order is
exactly `cexStableRows`; but the table actually returned by
`extract_transactions_from_region` — pandas' default quicksort, which for
more than 16 rows runs numpy's partitioning introsort — permutes the
equal-date rows (third conjunct).  The sort is not stable. -/
theorem C1_cex :
    (extractRecords sbiPattern cexLines).mapM (rowOf sbiPattern.date_out_format) =
      some cexStableRows ∧
    cexStableRows.all (fun r => r.date == 20240101) = true ∧
    (extract_transactions_from_region (.pat sbiPattern) cexLines).rows ≠ cexStableRows :=
  ⟨by decide, by decide, by decide⟩

/-- C1 (amended): for tables of at most 16 records the sort degenerates
to numpy's (stable) insertion pass: the table is sorted non-decreasing by
parsed date and records with equal dates keep the order of their
originating input lines (the record list is produced in line order and
the date-equal sublists are preserved).  For larger tables the default
quicksort does not preserve tie order — see the counterexample. -/
theorem C1_sorted_and_stable_up_to_16 (p : BankPattern) (lines : List LineMatch)
    (rows : List Row)
    (hrows : (extractRecords p lines).mapM (rowOf p.date_out_format) = some rows)
    (hlen : rows.length ≤ 16) :
    buildTable (extractRecords p lines) p.date_out_format = .ok ⟨pandasSortValues rows⟩ ∧
    DateSorted (pandasSortValues rows) ∧
    ∀ k, (pandasSortValues rows).filter (fun r => r.date == k) =
      rows.filter (fun r => r.date == k) := by
  have hps : pandasSortValues rows = npSmallSort rows := by
    rw [pandasSortValues, if_pos hlen]
  refine ⟨?_, ?_, fun k => ?_⟩
  · by_cases he : (extractRecords p lines).isEmpty = true
    · have he' : extractRecords p lines = [] := by
        simpa [List.isEmpty_iff] using he
      rw [he'] at hrows
      have hr0 : rows = [] := by
        have h2 : (some [] : Option (List Row)) = some rows := hrows
        exact (Option.some_inj.mp h2).symm
      subst hr0
      rw [buildTable, if_pos he, hps]
      rfl
    · rw [buildTable, if_neg he, hrows]
  · rw [hps]
    exact npSmallSort_sorted rows
  · rw [hps]
    exact npSmallSort_filter rows k

/-- Three matched SBI lines: one later date first, then two equal earlier
dates. -/
def w1lines : List LineMatch :=
  [some [some "02 Jan 24".toList, some "B".toList, some "5.00".toList, some "D".toList],
   some [some "01 Jan 24".toList, some "A1".toList, some "1.00".toList, some "C".toList],
   some [some "01 Jan 24".toList, some "A2".toList, some "2.00".toList, some "D".toList]]

/-- The rows those lines produce, in input order. -/
def w1rows : List Row :=
  [{ date := 20240102, Description := "B".toList, Amount := -5, txnType := "D".toList },
   { date := 20240101, Description := "A1".toList, Amount := 1, txnType := "C".toList },
   { date := 20240101, Description := "A2".toList, Amount := -2, txnType := "D".toList }]

/-- C1 witness: a three-row table is sorted by date and its equal-date
rows keep input order. -/
theorem C1_witness :
    (extractRecords sbiPattern w1lines).mapM (rowOf sbiPattern.date_out_format) =
      some w1rows ∧
    buildTable (extractRecords sbiPattern w1lines) sbiPattern.date_out_format =
      .ok ⟨pandasSortValues w1rows⟩ ∧
    DateSorted (pandasSortValues w1rows) ∧
    (pandasSortValues w1rows).filter (fun r => r.date == 20240101) =
      w1rows.filter (fun r => r.date == 20240101) := by
  have h := C1_sorted_and_stable_up_to_16 sbiPattern w1lines w1rows (by decide) (by decide)
  exact ⟨by decide, h.1, h.2.1, h.2.2 20240101⟩
